import Mathlib

/-!
Verification of the change-detection and state-reconciliation pipeline of
`firmware_checker.py` (with the record type of `device.py`).

The Python code is shallowly embedded:

* Decoded property-list data (the manifest) is the tree type `PValue`
  (dicts, arrays, strings, integers, booleans).  Dict entries keep source
  order, as Python dicts do.
* Python attribute/subscript errors are explicit: fallible code returns
  `Except PyErr` and `except KeyError` blocks are modelled by matching on
  `PyErr.keyError`.
* `AppleDevice` mirrors the dataclass of `device.py`; its non-key fields come
  from `dict.get` calls and are therefore `Option`-valued (Python `None` is
  `none`).
* The SQLite table is an association list keyed by `hardware_code`
  (`INSERT OR REPLACE` is remove-then-append, which preserves the lookup
  semantics relevant here).  SQLite specifics carried by the model: the
  `LIKE 'AppleTV%'` prune is ASCII-case-insensitive (the default, no
  `case_sensitive_like` pragma is set); the TEXT-affinity columns convert a
  bound integer (or bool, which sqlite3 binds as 0/1) to its decimal text on
  insert; binding an unsupported Python type (dict/list) raises, and the
  `with` block then rolls the whole batch back, so `update_database` is
  all-or-nothing.  The RSS document is a channel record with an ordered item
  list; a day partition of the URL history is the list of lines of the file
  (each written line is one URL followed by a newline, so the list-of-lines
  view is faithful for newline-free URLs).
* `datetime.now(...)` values are opaque `String` parameters.

Unicode notes: `str.isdigit` is modelled for ASCII digits, `str.strip` strips
the ASCII whitespace characters, and string comparison is by code points,
exactly as Python compares `str` values.
-/

/-- Errors a modelled Python expression can raise. -/
inductive PyErr where
  | keyError
  | typeError
  | attributeError
  | interfaceError
  deriving DecidableEq, Repr

mutual
/-- A decoded property-list value: the generic nested mapping the manifest
decodes to (`plistlib.loads` output). -/
inductive PValue where
  | pdict (entries : PEntries)
  | parr (elems : PArr)
  | pstr (s : String)
  | pint (n : Int)
  | pbool (b : Bool)
  deriving DecidableEq, Repr
/-- The ordered entries of a decoded dict. -/
inductive PEntries where
  | nil
  | cons (key : String) (val : PValue) (rest : PEntries)
  deriving DecidableEq, Repr
/-- The ordered elements of a decoded array. -/
inductive PArr where
  | anil
  | acons (head : PValue) (tail : PArr)
  deriving DecidableEq, Repr
end

deriving instance DecidableEq for Except

/-- First-match lookup in dict entries (Python dicts have unique keys, so
first match is the match). -/
def PEntries.find? : PEntries → String → Option PValue
  | .nil, _ => none
  | .cons k v r, key => if k = key then some v else r.find? key

/-- The keys of a dict in entry order (`data.keys()`). -/
def PEntries.keyList : PEntries → List String
  | .nil => []
  | .cons k _ r => k :: r.keyList

/-- Dict entries as a list of pairs (for quantified statements). -/
def PEntries.toList : PEntries → List (String × PValue)
  | .nil => []
  | .cons k v r => (k, v) :: r.toList

/-- Concatenation of dict entries (for frame statements about one entry). -/
def PEntries.app : PEntries → PEntries → PEntries
  | .nil, f => f
  | .cons k v r, f => .cons k v (r.app f)

/-- Python truthiness of a `PValue` (`if not x:` on a decoded value). -/
def pyFalsy : PValue → Bool
  | .pdict .nil => true
  | .parr .anil => true
  | .pstr "" => true
  | .pint 0 => true
  | .pbool false => true
  | _ => false

/-- Python truthiness of an `Optional` value: `None` is falsy. -/
def pyTruthy : Option PValue → Bool
  | none => false
  | some v => !pyFalsy v

/-- `x.get(key)`: `None` default on a dict, `AttributeError` on anything
else (also used for `.keys()`/`.items()` access, which fails the same way
on non-dict values). -/
def pyGet : PValue → String → Except PyErr (Option PValue)
  | .pdict e, k => .ok (e.find? k)
  | _, _ => .error .attributeError

/-- `x[key]` with a string key: `KeyError` when a dict lacks the key,
`TypeError` when `x` is not a dict at all. -/
def pySub : PValue → String → Except PyErr PValue
  | .pdict e, k =>
    match e.find? k with
    | some v => .ok v
    | none => .error .keyError
  | _, _ => .error .typeError

/-- `code.startswith(p)` on code points. -/
def pyStartsWith (s p : String) : Bool := p.data.isPrefixOf s.data

/-- `k.isdigit()` for ASCII digit strings: nonempty and all digits. -/
def pyIsDigit (s : String) : Bool := !s.data.isEmpty && s.data.all Char.isDigit

/-- `int(k)` for a digit-only string. -/
def pyInt (s : String) : Nat := s.data.foldl (fun n c => 10 * n + (c.toNat - 48)) 0

/-- `max(l)` for a nonempty list of naturals (the `0` base is inert). -/
def pyMaxNat (l : List Nat) : Nat := l.foldl max 0

/-- The dataclass of `device.py`.  `hardware_code` is a dict key, hence a
string; the other fields come from `restore_info.get(...)` and may be any
decoded value or `None`. -/
structure AppleDevice where
  hardware_code : String
  build_version : Option PValue
  firmware_sha1 : Option PValue
  firmware_url : Option PValue
  product_version : Option PValue
  deriving DecidableEq, Repr

/-- `find_latest_version_node` (firmware_checker.py lines 32-36): collect the
integer values of the digit-only keys, and return `data.get(str(max(...)))`;
`None` when no digit key exists.  Calling it on a non-dict raises
`AttributeError` at `data.keys()`. -/
def find_latest_version_node : PValue → Except PyErr (Option PValue)
  | .pdict e =>
    let numeric_keys := (e.keyList.filter pyIsDigit).map pyInt
    if numeric_keys.isEmpty then .ok none
    else .ok (e.find? (Nat.repr (pyMaxNat numeric_keys)))
  | _ => .error .attributeError

/-- The body of the `try:` block of `extract_firmware_info` for one
`(code, info)` pair: navigate `info["Unknown"]["Universal"]["Restore"]` and
read the four fields with `.get`. -/
def restoreBlock (code : String) (info : PValue) : Except PyErr AppleDevice := do
  let u ← pySub info "Unknown"
  let uu ← pySub u "Universal"
  let restore_info ← pySub uu "Restore"
  let bv ← pyGet restore_info "BuildVersion"
  let sha ← pyGet restore_info "FirmwareSHA1"
  let url ← pyGet restore_info "FirmwareURL"
  let pv ← pyGet restore_info "ProductVersion"
  .ok ⟨code, bv, sha, url, pv⟩

/-- One device entry with its `except KeyError: pass` handler: `KeyError`
inside the block skips the device (`ok none`), any other error propagates. -/
def handleDevice (code : String) (info : PValue) : Except PyErr (Option AppleDevice) :=
  match restoreBlock code info with
  | .ok d => .ok (some d)
  | .error .keyError => .ok none
  | .error e => .error e

/-- The `for code, info in versions.items()` loop of `extract_firmware_info`:
skip `AppleTV*` codes, append each successfully built device in iteration
order, abort on an uncaught error. -/
def extractLoop : PEntries → Except PyErr (List AppleDevice)
  | .nil => .ok []
  | .cons code info rest =>
    if pyStartsWith code "AppleTV" then extractLoop rest
    else
      match handleDevice code info with
      | .error e => .error e
      | .ok none => extractLoop rest
      | .ok (some d) => do
        let ds ← extractLoop rest
        .ok (d :: ds)

/-- `extract_firmware_info` (firmware_checker.py lines 38-64). -/
def extract_firmware_info (full_data : PValue) : Except PyErr (List AppleDevice) := do
  let by_version_node ← pyGet full_data "MobileDeviceSoftwareVersionsByVersion"
  if !pyTruthy by_version_node then .ok []
  else
    match by_version_node with
    | none => .ok []  -- unreachable: a truthy value is not None
    | some bv => do
      let latest_version_node ← find_latest_version_node bv
      if !pyTruthy latest_version_node then .ok []
      else
        match latest_version_node with
        | none => .ok []  -- unreachable: a truthy value is not None
        | some lv => do
          let versions ← pyGet lv "MobileDeviceSoftwareVersions"
          if !pyTruthy versions then .ok []
          else
            match versions with
            | some (.pdict e) => extractLoop e
            | some _ => .error .attributeError  -- versions.items() on a non-dict
            | none => .ok []  -- unreachable: a truthy value is not None

/-- A row of the `firmware` table (schema of `init_db`); `last_checked` holds
the opaque timestamp string of the run that wrote the row. -/
structure DbRow where
  product_version : Option PValue
  build_version : Option PValue
  firmware_sha1 : Option PValue
  firmware_url : Option PValue
  last_checked : String
  deriving DecidableEq, Repr

/-- Binding one Python value into a TEXT-affinity column and reading it back:
`None` stays NULL, a `str` stays text, an `int` (and a `bool`, which sqlite3
binds as the integer 0/1) is converted to its decimal text form by TEXT
affinity, and an unsupported type (dict/list) raises
`sqlite3.InterfaceError` at binding time. -/
def sqliteBind : Option PValue → Except PyErr (Option PValue)
  | none => .ok none
  | some (.pstr s) => .ok (some (.pstr s))
  | some (.pint n) => .ok (some (.pstr (toString n)))
  | some (.pbool true) => .ok (some (.pstr "1"))
  | some (.pbool false) => .ok (some (.pstr "0"))
  | some (.pdict _) => .error .interfaceError
  | some (.parr _) => .error .interfaceError

/-- A field value the TEXT-affinity round trip leaves unchanged: NULL or
text. -/
def sqliteTextFixed : Option PValue → Bool
  | none => true
  | some (.pstr _) => true
  | _ => false

/-- The row `update_database` writes for one device, with each field passed
through the TEXT-affinity binding. -/
def rowOf (now : String) (d : AppleDevice) : Except PyErr DbRow := do
  let pv ← sqliteBind d.product_version
  let bv ← sqliteBind d.build_version
  let sha ← sqliteBind d.firmware_sha1
  let url ← sqliteBind d.firmware_url
  .ok ⟨pv, bv, sha, url, now⟩

/-- The state store: one row per `hardware_code` (the primary key). -/
abbrev DbState := List (String × DbRow)

/-- `INSERT OR REPLACE` keyed by the primary key: drop any row with this key,
then insert the new row. -/
def upsertRow (db : DbState) (code : String) (r : DbRow) : DbState :=
  db.filter (fun kv => kv.1 != code) ++ [(code, r)]

/-- ASCII lower-casing of one character, the folding SQLite `LIKE` applies. -/
def asciiLower (c : Char) : Char :=
  if 65 ≤ c.toNat ∧ c.toNat ≤ 90 then Char.ofNat (c.toNat + 32) else c

/-- `hardware_code LIKE 'AppleTV%'`: SQLite `LIKE` is ASCII-case-insensitive
by default (the program sets no `case_sensitive_like` pragma), so the
pattern also matches `appletv...`, `APPLETV...`, etc. -/
def sqlLikeAppleTV (code : String) : Bool :=
  "appletv".data.isPrefixOf (code.data.map asciiLower)

/-- `init_db` (lines 68-84): create the table if needed (a fresh store is the
empty list) and delete every row whose key is LIKE `AppleTV%`
(case-insensitively). -/
def init_db (db : DbState) : DbState :=
  db.filter (fun kv => !sqlLikeAppleTV kv.1)

/-- `update_database` (lines 100-114): upsert one row per device, in device
order, with `last_checked := now`.  A binding error anywhere in the batch
raises, and the `with sqlite3.connect(...)` block rolls the transaction
back, so on error no row of the batch is written. -/
def update_database : DbState → List AppleDevice → String → Except PyErr DbState
  | db, [], _ => .ok db
  | db, d :: rest, now =>
    match rowOf now d with
    | .error e => .error e
    | .ok r => update_database (upsertRow db d.hardware_code r) rest now

/-- `get_existing_firmware` (lines 86-98): the `hardware_code -> firmware_sha1`
projection of the table (an empty store yields the empty mapping). -/
def get_existing_firmware (db : DbState) : List (String × Option PValue) :=
  db.map (fun kv => (kv.1, kv.2.firmware_sha1))

/-- `local_firmware.get(code)` (Python `dict.get` with default `None`): a
missing key and a stored SQL NULL both come back as Python `None`. -/
def pyDictGet (m : List (String × Option PValue)) (k : String) : Option PValue :=
  match List.lookup k m with
  | some v => v
  | none => none

/-- The delta computation of `main` (line 198):
`[d for d in remote_devices if d.firmware_sha1 != local_firmware.get(d.hardware_code)]`. -/
def diff_devices (local_firmware : List (String × Option PValue))
    (remote : List AppleDevice) : List AppleDevice :=
  remote.filter (fun d => d.firmware_sha1 != pyDictGet local_firmware d.hardware_code)

/-- One `<item>` of the RSS channel.  `link` and `guid` hold the raw
`firmware_url` value (ElementTree stores `.text` unconverted); `title`,
`pubDate` and `description` are the formatted strings. -/
structure RssItem where
  title : String
  link : Option PValue
  guid : Option PValue
  pubDate : String
  description : String
  deriving DecidableEq, Repr

/-- The RSS document: channel metadata plus the ordered item list (first
element = topmost item). -/
structure RssDoc where
  chTitle : String
  chLink : String
  chDescription : String
  items : List RssItem
  deriving DecidableEq, Repr

/-- The fresh channel built when the feed file is missing or unparsable
(lines 122-128). -/
def freshChannel : RssDoc :=
  ⟨"Apple Firmware Updates", "https://www.apple.com",
   "Latest Apple firmware updates found by checker script.", []⟩

/-- Python `str(x)` for the f-string interpolations, on an `Optional` decoded
value.  Containers get a placeholder rendering (Python would print their
literal form; no claim depends on that rendering). -/
def pyStrOf : Option PValue → String
  | none => "None"
  | some (.pstr s) => s
  | some (.pint n) => toString n
  | some (.pbool true) => "True"
  | some (.pbool false) => "False"
  | some (.pdict _) => "<dict>"
  | some (.parr _) => "<array>"

/-- The item built for one device (lines 136-141); `now` is the formatted
`datetime.now(timezone.utc)` string. -/
def mkItem (now : String) (d : AppleDevice) : RssItem :=
  { title := d.hardware_code ++ " - " ++ pyStrOf d.product_version
      ++ " (" ++ pyStrOf d.build_version ++ ")"
    link := d.firmware_url
    guid := d.firmware_url
    pubDate := now
    description := "Build: " ++ pyStrOf d.build_version
      ++ ", SHA1: " ++ pyStrOf d.firmware_sha1 }

/-- `update_rss_feed` (lines 116-146).  `doc` is the parse of the existing
file (`none` when the file is missing or `ET.ParseError` fires, in which case
the fresh channel is used).  The loop at lines 131-132 removes every existing
item; the loop at lines 135-142 appends one item per updated device at the
channel end, in batch order. -/
def update_rss_feed (doc : Option RssDoc) (updated_devices : List AppleDevice)
    (now : String) : RssDoc :=
  let base := match doc with
    | some t => t
    | none => freshChannel
  let cleared := { base with items := [] }
  updated_devices.foldl (fun ch d => { ch with items := ch.items ++ [mkItem now d] }) cleared

/-- Item count of an optional feed document (0 when no document exists). -/
def feedItemCount : Option RssDoc → Nat
  | some d => d.items.length
  | none => 0

/-- Code-point comparison of character lists: `a <= b` for Python strings. -/
def lexLe : List Char → List Char → Bool
  | [], _ => true
  | _ :: _, [] => false
  | a :: as, b :: bs =>
    if a.toNat < b.toNat then true
    else if a.toNat = b.toNat then lexLe as bs
    else false

/-- Python string `<=`. -/
def pyLe (a b : String) : Bool := lexLe a.data b.data

/-- Insert into a `pyLe`-sorted list, keeping it sorted. -/
def insertSorted (x : String) : List String → List String
  | [] => [x]
  | y :: ys => if pyLe x y then x :: y :: ys else y :: insertSorted x ys

/-- Ascending code-point sort, as Python `sorted` orders strings. -/
def pySort : List String → List String
  | [] => []
  | x :: xs => insertSorted x (pySort xs)

/-- `sorted(list(set(l)))`: the ascending duplicate-free list of the values
of `l` (sorting first and then deduplicating produces exactly that list). -/
def pySortedSet (l : List String) : List String := (pySort l).dedup

/-- The ASCII whitespace characters `str.strip` removes. -/
def pyIsSpace (c : Char) : Bool :=
  c = ' ' || c = '\t' || c = '\n' || c = '\x0d' || c = '\x0c' || c = '\x0b'

/-- `line.strip()`. -/
def pyStrip (s : String) : String :=
  String.mk (((s.data.dropWhile pyIsSpace).reverse.dropWhile pyIsSpace).reverse)

/-- `d.firmware_url` as the string that is sorted and written.  Python would
raise a `TypeError` while sorting or writing a non-string URL; both failure
points collapse to `typeError` here. -/
def urlString : Option PValue → Except PyErr String
  | some (.pstr s) => .ok s
  | _ => .error .typeError

/-- The URL strings of a device batch, in batch order. -/
def collectUrls : List AppleDevice → Except PyErr (List String)
  | [] => .ok []
  | d :: rest => do
    let u ← urlString d.firmware_url
    let us ← collectUrls rest
    .ok (u :: us)

/-- `save_firmware_urls` (lines 148-169) for one day partition.
`existing_file` is the current content of the partition file as a list of
lines (`none` when the file does not exist, which the `except
FileNotFoundError` arm turns into the empty list); each read line is
stripped.  The result is the full new content of the file, one URL per
line. -/
def save_firmware_urls (updated_devices : List AppleDevice)
    (existing_file : Option (List String)) : Except PyErr (List String) := do
  let urls ← collectUrls updated_devices
  let new_urls := pySortedSet urls
  let existing_urls := (match existing_file with
    | some lines => lines
    | none => []).map pyStrip
  .ok (pySortedSet (existing_urls ++ new_urls))

/-- The mutable world a run touches: the state store, the feed document (as
parsed; `none` = missing or unparsable) and the current day partition of the
URL history. -/
structure WorldState where
  db : DbState
  feed : Option RssDoc
  history : Option (List String)
  deriving DecidableEq

/-- The delta list a run starting from state `s` computes for manifest `p`
(empty when extraction raises, since the run dies before the diff). -/
def runDeltas (s : WorldState) (p : PValue) : List AppleDevice :=
  match extract_firmware_info p with
  | .ok remote => diff_devices (get_existing_firmware (init_db s.db)) remote
  | .error _ => []

/-- `main` (lines 171-217) for a single run.  `fetched` is the result of
`fetch_and_parse_plist` (`none` = fetch or plist decode failure).  Order of
effects follows the source: `init_db`, read the store, fetch, extract, diff,
then (only when the delta list is nonempty) `update_database` with the whole
remote list, `save_firmware_urls` with the deltas, `update_rss_feed` with the
deltas.  An uncaught Python exception aborts the run (`Except.error`). -/
def runMain (s : WorldState) (fetched : Option PValue) (now : String) :
    Except PyErr WorldState :=
  let db1 := init_db s.db
  let local_firmware := get_existing_firmware db1
  match fetched with
  | none => .ok { s with db := db1 }
  | some plist_data =>
    match extract_firmware_info plist_data with
    | .error e => .error e
    | .ok remote_devices =>
      if remote_devices.isEmpty then .ok { s with db := db1 }
      else
        let updated_devices := diff_devices local_firmware remote_devices
        if updated_devices.isEmpty then .ok { s with db := db1 }
        else
          match update_database db1 remote_devices now with
          | .error e => .error e
          | .ok db2 =>
            match save_firmware_urls updated_devices s.history with
            | .error e => .error e
            | .ok new_history =>
              .ok { db := db2
                    feed := some (update_rss_feed s.feed updated_devices now)
                    history := some new_history }

/-! Shared concrete values for counterexamples and witnesses. -/

/-- A one-entry dict. -/
def pd1 (k : String) (v : PValue) : PValue := .pdict (.cons k v .nil)

/-- A restore-info dict with the four string fields. -/
def restoreOf (b sh u p : String) : PValue :=
  .pdict (.cons "BuildVersion" (.pstr b) (.cons "FirmwareSHA1" (.pstr sh)
    (.cons "FirmwareURL" (.pstr u) (.cons "ProductVersion" (.pstr p) .nil))))

/-- A device node with the full `Unknown -> Universal -> Restore` path. -/
def devNode (b sh u p : String) : PValue :=
  pd1 "Unknown" (pd1 "Universal" (pd1 "Restore" (restoreOf b sh u p)))

/-- A manifest with one version group `"1"` holding one device. -/
def manifest1 : PValue :=
  pd1 "MobileDeviceSoftwareVersionsByVersion"
    (pd1 "1" (pd1 "MobileDeviceSoftwareVersions"
      (pd1 "iPhone1,1" (devNode "B1" "S1" "U1" "P1"))))

/-- The device `manifest1` extracts to. -/
def dev1 : AppleDevice :=
  ⟨"iPhone1,1", some (.pstr "B1"), some (.pstr "S1"), some (.pstr "U1"), some (.pstr "P1")⟩

/-- The i-th single-entry delta batch device for the feed-boundedness
experiment. -/
def devI (i : Nat) : AppleDevice :=
  ⟨"iPhone" ++ Nat.repr i, none, some (.pstr ("s" ++ Nat.repr i)),
   some (.pstr ("u" ++ Nat.repr i)), none⟩

/-- 60 successive single-entry delta batches applied to an initially missing
(empty) feed document. -/
def feed60 : Option RssDoc :=
  (List.range 60).foldl (fun acc i => some (update_rss_feed acc [devI i] "t")) none

/-! Feed writer lemmas. -/

theorem feed_foldl_items (now : String) (devs : List AppleDevice) (ch : RssDoc) :
    (devs.foldl (fun ch d => { ch with items := ch.items ++ [mkItem now d] }) ch).items
      = ch.items ++ devs.map (mkItem now) := by
  induction devs generalizing ch with
  | nil => simp
  | cons d rest ih =>
    simp only [List.foldl_cons, List.map_cons]
    rw [ih]
    simp

theorem update_rss_feed_items (doc : Option RssDoc) (devs : List AppleDevice) (now : String) :
    (update_rss_feed doc devs now).items = devs.map (mkItem now) := by
  unfold update_rss_feed
  rw [feed_foldl_items]
  simp

/-- C10: calling the feed writer with a non-empty delta list leaves the
document with exactly one item per delta record, in production order (first
delta topmost), whatever items the document held before. -/
theorem C10_feed_is_batch (doc : Option RssDoc) (devs : List AppleDevice) (now : String)
    (_hne : devs ≠ []) :
    (update_rss_feed doc devs now).items = devs.map (mkItem now) :=
  update_rss_feed_items doc devs now

/-- Witness for C10 at a concrete document that already holds an item. -/
theorem C10_witness :
    (update_rss_feed
        (some ⟨"t", "l", "d", [⟨"old", none, none, "t0", "x"⟩]⟩)
        [dev1] "t1").items = [mkItem "t1" dev1] :=
  C10_feed_is_batch (some ⟨"t", "l", "d", [⟨"old", none, none, "t0", "x"⟩]⟩)
    [dev1] "t1" (by decide)

/-- A pre-existing feed item that is not part of the delta batch. -/
def exOldItem : RssItem := ⟨"iPad2,1 - P0 (B0)", some (.pstr "u0"), some (.pstr "u0"), "t0", "old"⟩

/-- A parsable feed document holding `exOldItem`. -/
def exOldDoc : RssDoc := ⟨"Apple Firmware Updates", "https://www.apple.com", "desc", [exOldItem]⟩

/-- C1 counterexample: applying a single-entry delta batch to a parsable
document with one pre-existing entry discards that entry even though the
resulting document has only 1 item (far below any truncation bound), so
pre-existing entries are not preserved. -/
theorem C1_counterexample :
    exOldItem ∈ exOldDoc.items
      ∧ (update_rss_feed (some exOldDoc) [dev1] "t1").items = [mkItem "t1" dev1]
      ∧ exOldItem ∉ (update_rss_feed (some exOldDoc) [dev1] "t1").items := by
  refine ⟨by decide, by decide, by decide⟩

/-- C1 amended: applying a delta batch to an existing, parsable feed document
removes every pre-existing entry; the resulting item list is exactly the
batch's entries in batch order, so a pre-existing entry survives only if it
coincides with an entry of the current batch. -/
theorem C1_feed_replaces_items (doc : RssDoc) (devs : List AppleDevice) (now : String) :
    (update_rss_feed (some doc) devs now).items = devs.map (mkItem now) :=
  update_rss_feed_items (some doc) devs now

/-- C3 counterexample: 60 successive single-entry delta batches applied to an
initially empty feed leave exactly 1 entry, not 50. -/
theorem C3_counterexample :
    feedItemCount feed60 = 1 ∧ feedItemCount feed60 ≠ 50 := by
  refine ⟨by decide, by decide⟩

/-- C3 amended: the feed writer enforces no size bound at all; after applying
a delta batch the document holds exactly one entry per batch record (so 60
successive single-entry batches leave exactly 1 entry, the one of the most
recent batch). -/
theorem C3_feed_size_equals_batch :
    (∀ (doc : Option RssDoc) (devs : List AppleDevice) (now : String),
        (update_rss_feed doc devs now).items.length = devs.length)
      ∧ feed60 = some { freshChannel with items := [mkItem "t" (devI 59)] } := by
  constructor
  · intro doc devs now
    rw [update_rss_feed_items]
    exact List.length_map devs _
  · decide

/-! Reconciler lemmas. -/

theorem mem_diff_devices (local_firmware : List (String × Option PValue))
    (remote : List AppleDevice) (d : AppleDevice) :
    d ∈ diff_devices local_firmware remote
      ↔ d ∈ remote ∧ d.firmware_sha1 ≠ pyDictGet local_firmware d.hardware_code := by
  unfold diff_devices
  rw [List.mem_filter, bne_iff_ne]

/-- A device whose extracted fingerprint is null (`None`). -/
def nullDev : AppleDevice := ⟨"iPhone9,1", none, none, some (.pstr "u9"), none⟩

/-- C2 counterexample: a device with a null extracted fingerprint and no
stored fingerprint (an empty store, hence `local_firmware.get` returns
`None`) does NOT appear in the delta list: Python evaluates
`None != None` to `False`, so the null fingerprint compares as equal to a
missing/null stored value rather than as different from everything. -/
theorem C2_counterexample :
    nullDev.firmware_sha1 = none ∧ diff_devices [] [nullDev] = [] := by
  refine ⟨rfl, by decide⟩

/-- C2 amended: a device whose extracted fingerprint is null appears in the
delta list iff the store holds a non-null fingerprint under its hardware
code; a null fingerprint compares as different only from non-null stored
values, and as equal to a stored null or a missing row, so such a device
stops being reported as soon as its null fingerprint is stored (and is never
reported when the store has no row for it). -/
theorem C2_null_fingerprint_delta_iff (local_firmware : List (String × Option PValue))
    (remote : List AppleDevice) (d : AppleDevice)
    (hmem : d ∈ remote) (hnull : d.firmware_sha1 = none) :
    d ∈ diff_devices local_firmware remote
      ↔ pyDictGet local_firmware d.hardware_code ≠ none := by
  rw [mem_diff_devices]
  rw [hnull]
  constructor
  · intro h
    exact fun hc => h.2 hc.symm
  · intro h
    exact ⟨hmem, fun hc => h hc.symm⟩

/-- Witness for C2: with a non-null stored fingerprint the null-fingerprint
device is a delta. -/
theorem C2_witness :
    nullDev ∈ diff_devices [("iPhone9,1", some (.pstr "AAA"))] [nullDev] := by
  rw [C2_null_fingerprint_delta_iff [("iPhone9,1", some (.pstr "AAA"))] [nullDev] nullDev
    (by decide) rfl]
  decide

/-- A remote device with a null fingerprint whose code has no stored row. -/
def newNullDev : AppleDevice := ⟨"iPhone3,1", none, none, some (.pstr "u3"), none⟩

/-- C4 counterexample: a remote record whose `hardware_code` has no stored
row but whose `firmware_sha1` is null does NOT appear in the delta list
(`None != None` is `False` in Python), so new devices are not
unconditionally reported. -/
theorem C4_counterexample :
    List.lookup newNullDev.hardware_code [("iPad1,1", some (PValue.pstr "Z"))] = none
      ∧ diff_devices [("iPad1,1", some (PValue.pstr "Z"))] [newNullDev] = [] := by
  refine ⟨rfl, by decide⟩

/-- C4 amended: a remote record whose `hardware_code` has no stored row
appears in the delta list iff its `firmware_sha1` is non-null (a missing key
makes `local_firmware.get` return `None`, which compares as different
exactly from non-null fingerprints). -/
theorem C4_new_device_delta_iff (local_firmware : List (String × Option PValue))
    (remote : List AppleDevice) (d : AppleDevice)
    (hmem : d ∈ remote) (hnew : List.lookup d.hardware_code local_firmware = none) :
    d ∈ diff_devices local_firmware remote ↔ d.firmware_sha1 ≠ none := by
  rw [mem_diff_devices]
  unfold pyDictGet
  rw [hnew]
  exact ⟨fun h => h.2, fun h => ⟨hmem, h⟩⟩

/-- Witness for C4: a new device with a non-null fingerprint is a delta. -/
theorem C4_witness :
    dev1 ∈ diff_devices [("iPad1,1", some (.pstr "Z"))] [dev1] := by
  rw [C4_new_device_delta_iff [("iPad1,1", some (.pstr "Z"))] [dev1] dev1
    (by decide) rfl]
  decide

/-! Run-level lemmas for fetch/decode failure. -/

/-- A stale excluded-family row, as an older version of the tracker would
have stored it. -/
def tvRow : DbRow := ⟨some (.pstr "P"), some (.pstr "B"), some (.pstr "S"), some (.pstr "U"), "t0"⟩

/-- A world whose store still holds an `AppleTV` row. -/
def tvState : WorldState := ⟨[("AppleTV3,1", tvRow)], none, none⟩

/-- C5 counterexample: with a stale `AppleTV` row in the store, a run whose
manifest fetch fails still mutates the state store: `init_db` deletes the
row before the fetch is attempted, so the store changes from one row to
empty even though no manifest was obtained. -/
theorem C5_counterexample :
    runMain tvState none "t1" = .ok ⟨[], none, none⟩ ∧ tvState.db ≠ [] := by
  refine ⟨rfl, by decide⟩

/-- C5 amended: when the manifest fetch or decode fails the run terminates
with no mutation of the feed document or the history log and no mutation of
the state store beyond the initialization-time prune of excluded-family
rows (`LIKE 'AppleTV%'`, ASCII-case-insensitive), which runs before the
fetch regardless of its outcome; in particular a store with no row whose key
matches that pattern is left entirely unchanged. -/
theorem C5_fetch_failure_only_prunes :
    (∀ (s : WorldState) (now : String),
        runMain s none now = .ok { s with db := init_db s.db })
      ∧ (∀ (s : WorldState) (now : String), init_db s.db = s.db →
          runMain s none now = .ok s) := by
  constructor
  · intro s now
    rfl
  · intro s now h
    show Except.ok { s with db := init_db s.db } = Except.ok s
    rw [h]

/-- Witness for C5 at a concrete `AppleTV`-free state: the failed run changes
nothing. -/
theorem C5_witness :
    runMain ⟨[("iPhone1,1", tvRow)], none, some ["u"]⟩ none "t1"
      = .ok ⟨[("iPhone1,1", tvRow)], none, some ["u"]⟩ :=
  C5_fetch_failure_only_prunes.2 ⟨[("iPhone1,1", tvRow)], none, some ["u"]⟩ "t1" (by decide)


/-! Sorting lemmas for the history log. -/

theorem lexLe_total (as bs : List Char) : lexLe as bs = true ∨ lexLe bs as = true := by
  induction as generalizing bs with
  | nil => left; rfl
  | cons a as ih =>
    cases bs with
    | nil => right; rfl
    | cons b bs =>
      rcases Nat.lt_trichotomy a.toNat b.toNat with h | h | h
      · left; simp [lexLe, h]
      · rcases ih bs with h2 | h2
        · left; simp [lexLe, h, h2]
        · right; simp [lexLe, h.symm, h2]
      · right; simp [lexLe, h]

theorem lexLe_trans (as bs cs : List Char) (h1 : lexLe as bs = true)
    (h2 : lexLe bs cs = true) : lexLe as cs = true := by
  induction as generalizing bs cs with
  | nil => rfl
  | cons a as ih =>
    cases bs with
    | nil => simp [lexLe] at h1
    | cons b bs =>
      cases cs with
      | nil => simp [lexLe] at h2
      | cons c cs =>
        simp only [lexLe] at h1 h2 ⊢
        by_cases hab : a.toNat < b.toNat
        · rw [if_pos hab] at h1
          by_cases hbc : b.toNat < c.toNat
          · rw [if_pos (show a.toNat < c.toNat by omega)]
          · rw [if_neg hbc] at h2
            by_cases hbce : b.toNat = c.toNat
            · rw [if_pos (show a.toNat < c.toNat by omega)]
            · rw [if_neg hbce] at h2
              cases h2
        · rw [if_neg hab] at h1
          by_cases habe : a.toNat = b.toNat
          · rw [if_pos habe] at h1
            by_cases hbc : b.toNat < c.toNat
            · rw [if_pos (show a.toNat < c.toNat by omega)]
            · rw [if_neg hbc] at h2
              by_cases hbce : b.toNat = c.toNat
              · rw [if_pos hbce] at h2
                rw [if_neg (show ¬ a.toNat < c.toNat by omega),
                  if_pos (show a.toNat = c.toNat by omega)]
                exact ih bs cs h1 h2
              · rw [if_neg hbce] at h2
                cases h2
          · rw [if_neg habe] at h1
            cases h1

theorem pyLe_total (a b : String) : pyLe a b = true ∨ pyLe b a = true :=
  lexLe_total a.data b.data

theorem pyLe_trans (a b c : String) (h1 : pyLe a b = true) (h2 : pyLe b c = true) :
    pyLe a c = true :=
  lexLe_trans a.data b.data c.data h1 h2

/-- Ascending (Python string order) as a predicate on the written file. -/
abbrev PyAscending (l : List String) : Prop := l.Pairwise (fun a b => pyLe a b = true)

theorem mem_insertSorted (x y : String) (l : List String) :
    y ∈ insertSorted x l ↔ y = x ∨ y ∈ l := by
  induction l with
  | nil => simp [insertSorted]
  | cons z zs ih =>
    unfold insertSorted
    by_cases h : pyLe x z = true
    · rw [if_pos h]
      exact List.mem_cons
    · rw [if_neg h]
      rw [List.mem_cons, List.mem_cons, ih]
      tauto

theorem mem_pySort (y : String) (l : List String) : y ∈ pySort l ↔ y ∈ l := by
  induction l with
  | nil => simp [pySort]
  | cons x xs ih =>
    unfold pySort
    rw [mem_insertSorted, ih, List.mem_cons]

theorem pairwise_insertSorted (x : String) (l : List String) (h : PyAscending l) :
    PyAscending (insertSorted x l) := by
  induction l with
  | nil => simp [insertSorted]
  | cons y ys ih =>
    rcases List.pairwise_cons.mp h with ⟨hy, hys⟩
    unfold insertSorted
    by_cases hxy : pyLe x y = true
    · rw [if_pos hxy]
      refine List.pairwise_cons.mpr ⟨?_, h⟩
      intro z hz
      rcases List.mem_cons.mp hz with rfl | hz
      · exact hxy
      · exact pyLe_trans x y z hxy (hy z hz)
    · rw [if_neg hxy]
      refine List.pairwise_cons.mpr ⟨?_, ih hys⟩
      intro z hz
      rcases (mem_insertSorted x z ys).mp hz with hzx | hz
      · rw [hzx]
        rcases pyLe_total x y with h1 | h1
        · exact absurd h1 hxy
        · exact h1
      · exact hy z hz

theorem pairwise_pySort (l : List String) : PyAscending (pySort l) := by
  induction l with
  | nil => exact List.Pairwise.nil
  | cons x xs ih => exact pairwise_insertSorted x (pySort xs) ih

theorem mem_pySortedSet (y : String) (l : List String) : y ∈ pySortedSet l ↔ y ∈ l := by
  unfold pySortedSet
  rw [List.mem_dedup, mem_pySort]

theorem pairwise_pySortedSet (l : List String) : PyAscending (pySortedSet l) :=
  List.Pairwise.sublist (List.dedup_sublist (pySort l)) (pairwise_pySort l)

theorem nodup_pySortedSet (l : List String) : (pySortedSet l).Nodup :=
  List.nodup_dedup (pySort l)

/-! History log lemmas. -/

theorem collectUrls_mem_iff (devs : List AppleDevice) (us : List String) (u : String)
    (h : collectUrls devs = .ok us) :
    u ∈ us ↔ ∃ d ∈ devs, d.firmware_url = some (.pstr u) := by
  induction devs generalizing us with
  | nil =>
    cases h
    simp
  | cons a rest ih =>
    unfold collectUrls at h
    cases ha : urlString a.firmware_url with
    | error e => rw [ha] at h; cases h
    | ok ua =>
      rw [ha] at h
      cases hrest : collectUrls rest with
      | error e => rw [hrest] at h; cases h
      | ok urest =>
        rw [hrest] at h
        cases h
        have hau : a.firmware_url = some (.pstr ua) := by
          unfold urlString at ha
          cases hf : a.firmware_url with
          | none => rw [hf] at ha; cases ha
          | some v =>
            rw [hf] at ha
            cases v with
            | pstr s => cases ha; rfl
            | pdict e => cases ha
            | parr e => cases ha
            | pint n => cases ha
            | pbool b => cases ha
        constructor
        · intro hu
          rcases List.mem_cons.mp hu with rfl | hu
          · exact ⟨a, List.mem_cons_self a rest, hau⟩
          · rcases (ih urest hrest).mp hu with ⟨d, hd, hdu⟩
            exact ⟨d, List.mem_cons_of_mem a hd, hdu⟩
        · rintro ⟨d, hd, hdu⟩
          rcases List.mem_cons.mp hd with rfl | hd
          · rw [hau] at hdu
            cases hdu
            exact List.mem_cons_self _ _
          · exact List.mem_cons_of_mem _ ((ih urest hrest).mpr ⟨d, hd, hdu⟩)

theorem save_firmware_urls_ok (devs : List AppleDevice) (file : Option (List String))
    (res : List String) (h : save_firmware_urls devs file = .ok res) :
    ∃ urls, collectUrls devs = .ok urls
      ∧ res = pySortedSet (((match file with
          | some lines => lines
          | none => []).map pyStrip) ++ pySortedSet urls) := by
  unfold save_firmware_urls at h
  cases hc : collectUrls devs with
  | error e => rw [hc] at h; cases h
  | ok urls =>
    rw [hc] at h
    cases h
    exact ⟨urls, rfl, rfl⟩

theorem save_mem_iff (devs : List AppleDevice) (lines res : List String)
    (h : save_firmware_urls devs (some lines) = .ok res) (u : String) :
    u ∈ res ↔ (u ∈ lines.map pyStrip ∨ ∃ d ∈ devs, d.firmware_url = some (.pstr u)) := by
  rcases save_firmware_urls_ok devs (some lines) res h with ⟨urls, hc, rfl⟩
  rw [mem_pySortedSet, List.mem_append, mem_pySortedSet,
    collectUrls_mem_iff devs urls u hc]

theorem save_sorted_nodup (devs : List AppleDevice) (file : Option (List String))
    (res : List String) (h : save_firmware_urls devs file = .ok res) :
    PyAscending res ∧ res.Nodup := by
  rcases save_firmware_urls_ok devs file res h with ⟨urls, _, rfl⟩
  exact ⟨pairwise_pySortedSet _, nodup_pySortedSet _⟩

/-- A device carrying a given hardware code and firmware URL. -/
def urlDev (c u : String) : AppleDevice := ⟨c, none, some (.pstr "s"), some (.pstr u), none⟩

/-- C9 counterexample: when a stored line carries trailing whitespace, a later
run of the same day drops it: the writer re-reads the partition through
`line.strip()`, so the union it writes contains the stripped form only and the
stored URL `"a "` is no longer present — the stored set is not always a
superset of what was previously stored. -/
theorem C9_counterexample :
    save_firmware_urls [urlDev "x" "b"] (some ["a "]) = .ok ["a", "b"]
      ∧ "a " ∉ (["a", "b"] : List String) := by
  refine ⟨by decide, by decide⟩

/-- C9 amended: the history writer writes back the sorted, deduplicated union
of the STRIPPED previously stored lines and the batch's distinct
`firmware_url` values; consequently any URL equal to its own strip (no
leading/trailing whitespace) that is present in the day partition remains
present after every later run touching that partition, and recording
`{a, b}` then `{b, c}` for the same day yields exactly `{a, b, c}` sorted
with no duplicate of `b`. -/
theorem C9_history_union :
    (∀ (devs : List AppleDevice) (lines res : List String),
        save_firmware_urls devs (some lines) = .ok res →
        ∀ u, u ∈ res ↔ (u ∈ lines.map pyStrip ∨ ∃ d ∈ devs, d.firmware_url = some (.pstr u)))
      ∧ (∀ (devs : List AppleDevice) (file : Option (List String)) (res : List String),
          save_firmware_urls devs file = .ok res → PyAscending res ∧ res.Nodup)
      ∧ (∀ (devs : List AppleDevice) (lines res : List String) (u : String),
          save_firmware_urls devs (some lines) = .ok res →
          u ∈ lines → pyStrip u = u → u ∈ res)
      ∧ (save_firmware_urls [urlDev "x" "a", urlDev "y" "b"] none = .ok ["a", "b"]
          ∧ save_firmware_urls [urlDev "y" "b", urlDev "z" "c"] (some ["a", "b"])
              = .ok ["a", "b", "c"]) := by
  refine ⟨save_mem_iff, save_sorted_nodup, ?_, by decide, by decide⟩
  intro devs lines res u h hmem hstrip
  rw [save_mem_iff devs lines res h u]
  left
  rw [List.mem_map]
  exact ⟨u, hmem, hstrip⟩

/-- Witness for C9: the persistence conjunct applied to the concrete
same-day second run. -/
theorem C9_witness :
    "a" ∈ (["a", "b", "c"] : List String) :=
  C9_history_union.2.2.1 [urlDev "y" "b", urlDev "z" "c"] ["a", "b"] ["a", "b", "c"] "a"
    (by decide) (by decide) (by decide)


/-! Extractor lemmas. -/

/-- Induction on dict entries alone (the mutual recursor specialised to a
single motive, with trivial motives for the value types). -/
theorem PEntries.inductionOn (P : PEntries → Prop) (h0 : P .nil)
    (h1 : ∀ (k : String) (v : PValue) (r : PEntries), P r → P (.cons k v r)) :
    ∀ e, P e
  | .nil => h0
  | .cons k v r => h1 k v r (PEntries.inductionOn P h0 h1 r)

/-- Every value met while navigating `Unknown -> Universal -> Restore` inside
one device node is a dict when present (the shape under which the per-device
`try` block can only raise `KeyError`). -/
def okRestorePath (info : PValue) : Bool :=
  match info with
  | .pdict e =>
    match e.find? "Unknown" with
    | none => true
    | some (.pdict eu) =>
      match eu.find? "Universal" with
      | none => true
      | some (.pdict ev) =>
        match ev.find? "Restore" with
        | none => true
        | some (.pdict _) => true
        | some _ => false
      | some _ => false
    | some _ => false
  | _ => false

theorem handleDevice_shape (c : String) (info : PValue) (h : okRestorePath info = true) :
    ∃ od, handleDevice c info = .ok od := by
  unfold okRestorePath at h
  split at h
  · next e =>
    split at h
    · next hu =>
      exact ⟨none, by simp [handleDevice, restoreBlock, pySub, hu, Bind.bind, Except.bind]⟩
    · next eu hu =>
      split at h
      · next huu =>
        exact ⟨none, by simp [handleDevice, restoreBlock, pySub, hu, huu, Bind.bind, Except.bind]⟩
      · next ev huu =>
        split at h
        · next hr =>
          exact ⟨none,
            by simp [handleDevice, restoreBlock, pySub, hu, huu, hr, Bind.bind, Except.bind]⟩
        · next er hr =>
          refine ⟨some ⟨c, er.find? "BuildVersion", er.find? "FirmwareSHA1",
            er.find? "FirmwareURL", er.find? "ProductVersion"⟩, ?_⟩
          simp [handleDevice, restoreBlock, pySub, pyGet, hu, huu, hr, Bind.bind, Except.bind]
        · cases h
      · cases h
    · cases h
  · cases h

theorem extractLoop_skip (e1 e2 : PEntries) (c : String) (info : PValue)
    (h : restoreBlock c info = .error .keyError) :
    extractLoop (e1.app (.cons c info e2)) = extractLoop (e1.app e2) := by
  have hh : handleDevice c info = .ok none := by
    unfold handleDevice
    rw [h]
  induction e1 using PEntries.inductionOn with
  | h0 =>
    show extractLoop (.cons c info e2) = extractLoop e2
    by_cases htv : pyStartsWith c "AppleTV" = true
    · simp [extractLoop, htv]
    · simp [extractLoop, htv, hh]
  | h1 k v r ih =>
    show extractLoop (.cons k v (r.app (.cons c info e2))) = extractLoop (.cons k v (r.app e2))
    simp only [extractLoop]
    rw [ih]

theorem extractLoop_total (e : PEntries)
    (hall : ∀ p ∈ e.toList, okRestorePath p.2 = true) :
    ∃ l, extractLoop e = .ok l := by
  induction e using PEntries.inductionOn with
  | h0 => exact ⟨[], rfl⟩
  | h1 c info r ih =>
    have hhead : okRestorePath info = true :=
      hall (c, info) (by simp [PEntries.toList])
    have hrest : ∀ p ∈ r.toList, okRestorePath p.2 = true := by
      intro p hp
      exact hall p (by simp [PEntries.toList, hp])
    by_cases htv : pyStartsWith c "AppleTV" = true
    · rcases ih hrest with ⟨l, hl⟩
      exact ⟨l, by simp [extractLoop, htv, hl]⟩
    · rcases handleDevice_shape c info hhead with ⟨od, hod⟩
      rcases ih hrest with ⟨l, hl⟩
      cases od with
      | none => exact ⟨l, by simp [extractLoop, htv, hod, hl]⟩
      | some d => exact ⟨d :: l, by simp [extractLoop, htv, hod, hl, Bind.bind, Except.bind]⟩

/-- A manifest whose only device node is a string, not a mapping. -/
def manBadInfo : PValue :=
  pd1 "MobileDeviceSoftwareVersionsByVersion"
    (pd1 "1" (pd1 "MobileDeviceSoftwareVersions" (pd1 "iPhone1,1" (.pstr "junk"))))

/-- C6 counterexample: a malformed sub-structure does abort extraction with
an uncaught error.  When the device node is the string `"junk"`, Python
evaluates `info["Unknown"]` on a `str`, which raises `TypeError` — not the
`KeyError` the handler catches — so `extract_firmware_info` raises instead of
returning a list or skipping the device. -/
theorem C6_counterexample :
    extract_firmware_info manBadInfo = .error .typeError := by
  decide

/-- C6 amended: extraction never raises only in the absence sense: a missing
top-level path yields the empty list, and a device entry whose fixed nested
path stops at a MISSING key (`KeyError`) is silently skipped without
disturbing the extraction of the other entries; when every traversed value of
every device entry is a mapping, the whole loop returns a list.  A sub-value
of the wrong type (a non-mapping where a mapping is expected) instead raises
an uncaught error and aborts extraction (see the counterexample). -/
theorem C6_extractor_absence_handling :
    (∀ e : PEntries, e.find? "MobileDeviceSoftwareVersionsByVersion" = none →
        extract_firmware_info (.pdict e) = .ok [])
      ∧ (∀ (e1 e2 : PEntries) (c : String) (info : PValue),
          restoreBlock c info = .error .keyError →
          extractLoop (e1.app (.cons c info e2)) = extractLoop (e1.app e2))
      ∧ (∀ e : PEntries, (∀ p ∈ e.toList, okRestorePath p.2 = true) →
          ∃ l, extractLoop e = .ok l) := by
  refine ⟨?_, extractLoop_skip, extractLoop_total⟩
  intro e h
  simp [extract_firmware_info, pyGet, h, pyTruthy, Bind.bind, Except.bind]

/-- Witness for C6: a device entry whose node lacks `Unknown` is skipped; the
two surrounding devices are still extracted, unchanged. -/
theorem C6_witness :
    extractLoop
        (.cons "iPhone1,1" (devNode "B1" "S1" "U1" "P1")
          (.cons "iPhone8,1" (.pdict .nil)
            (.cons "iPad1,1" (devNode "B2" "S2" "U2" "P2") .nil)))
      = extractLoop
        (.cons "iPhone1,1" (devNode "B1" "S1" "U1" "P1")
          (.cons "iPad1,1" (devNode "B2" "S2" "U2" "P2") .nil)) :=
  C6_extractor_absence_handling.2.1
    (.cons "iPhone1,1" (devNode "B1" "S1" "U1" "P1") .nil)
    (.cons "iPad1,1" (devNode "B2" "S2" "U2" "P2") .nil)
    "iPhone8,1" (.pdict .nil) (by decide)

/-! Version selection. -/

/-- Modelled from the spec wording: the numeric maximum over the keys that
parse as non-negative integers, `none` when no such key exists. -/
def maxDigitKey (e : PEntries) : Option Nat :=
  ((e.keyList.filter pyIsDigit).map pyInt).max?

/-- A version-group node used only as an opaque marker value. -/
def grp (tag : String) : PValue := pd1 "marker" (.pstr tag)

/-- The ByVersion node keyed by `"007"` only. -/
def node007 : PEntries :=
  .cons "007" (pd1 "MobileDeviceSoftwareVersions" (pd1 "iPhone1,1" (devNode "B" "S" "U" "P"))) .nil

/-- The same manifest with the group keyed `"007"` and, for comparison, keyed
`"7"`. -/
def man007 : PValue := pd1 "MobileDeviceSoftwareVersionsByVersion" (.pdict node007)

/-- The manifest whose single version group is keyed by the canonical decimal
string `"7"`. -/
def man7 : PValue :=
  pd1 "MobileDeviceSoftwareVersionsByVersion"
    (pd1 "7" (pd1 "MobileDeviceSoftwareVersions" (pd1 "iPhone1,1" (devNode "B" "S" "U" "P"))))

/-- The device both manifests describe. -/
def dev7 : AppleDevice :=
  ⟨"iPhone1,1", some (.pstr "B"), some (.pstr "S"), some (.pstr "U"), some (.pstr "P")⟩

/-- C7 counterexample: with the single version group keyed `"007"`, a key
that parses as the non-negative integer 7 exists, yet the code selects no
group and yields no records: `str(max(...))` canonicalises 7 to `"7"`, and
`data.get("7")` misses the stored key `"007"`.  The identical group keyed
`"7"` yields the device, so the emptiness comes from the key lookup, not
from the group content. -/
theorem C7_counterexample :
    pyIsDigit "007" = true
      ∧ find_latest_version_node (.pdict node007) = .ok none
      ∧ extract_firmware_info man007 = .ok []
      ∧ extract_firmware_info man7 = .ok [dev7] := by
  refine ⟨by decide, by decide, by decide, by decide⟩

/-- C7 amended: the extractor computes the numeric maximum m over the keys
that parse as non-negative integers (ignoring non-numeric keys) and selects
the group stored under the CANONICAL DECIMAL STRING of m (`str(max(...))`);
it yields no records when no numeric key exists, and also selects nothing
when the maximal key is spelled non-canonically (e.g. with leading zeros);
given groups keyed "1", "3", "10", "abc" it selects group "10". -/
theorem C7_version_selection :
    (∀ e : PEntries, maxDigitKey e = none →
        find_latest_version_node (.pdict e) = .ok none)
      ∧ (∀ (e : PEntries) (m : Nat), maxDigitKey e = some m →
          find_latest_version_node (.pdict e) = .ok (e.find? (Nat.repr m))) := by
  constructor
  · intro e h
    unfold maxDigitKey at h
    cases hl : (e.keyList.filter pyIsDigit).map pyInt with
    | nil => simp [find_latest_version_node, hl]
    | cons a as =>
      rw [hl] at h
      cases h
  · intro e m h
    unfold maxDigitKey at h
    cases hl : (e.keyList.filter pyIsDigit).map pyInt with
    | nil =>
      rw [hl] at h
      cases h
    | cons a as =>
      rw [hl] at h
      have hm : m = as.foldl max a := by
        cases h
        rfl
      have hfold : pyMaxNat (a :: as) = as.foldl max a := by
        unfold pyMaxNat
        rw [List.foldl_cons, Nat.zero_max]
      simp only [find_latest_version_node, hl]
      simp [hfold, hm]

/-- Witness for C7 on groups keyed "1", "3", "10", "abc": group "10" is
selected. -/
theorem C7_witness :
    find_latest_version_node
        (.pdict (.cons "1" (grp "one") (.cons "3" (grp "three")
          (.cons "10" (grp "ten") (.cons "abc" (grp "junk") .nil)))))
      = .ok (some (grp "ten")) := by
  rw [C7_version_selection.2
    (.cons "1" (grp "one") (.cons "3" (grp "three")
      (.cons "10" (grp "ten") (.cons "abc" (grp "junk") .nil)))) 10 (by decide)]
  decide


/-! State store lemmas. -/

theorem lookup_filter_out (db : DbState) (c : String) :
    List.lookup c (db.filter (fun kv => kv.1 != c)) = none := by
  induction db with
  | nil => rfl
  | cons kv rest ih =>
    obtain ⟨k, r⟩ := kv
    rw [List.filter_cons]
    by_cases h : (k != c) = true
    · have hk : ¬ c = k := fun hc => (bne_iff_ne.mp h) hc.symm
      simp only [h, if_true, List.lookup_cons, beq_false_of_ne hk]
      exact ih
    · simp only [h, if_false]
      exact ih

theorem lookup_filter_keep (db : DbState) (c c2 : String) (hne : c ≠ c2) :
    List.lookup c (db.filter (fun kv => kv.1 != c2)) = List.lookup c db := by
  induction db with
  | nil => rfl
  | cons kv rest ih =>
    obtain ⟨k, r⟩ := kv
    rw [List.filter_cons]
    by_cases h : (k != c2) = true
    · simp only [h, if_true, List.lookup_cons]
      cases hc : c == k
      · exact ih
      · rfl
    · have hk : k = c2 := by
        have : (k != c2) = false := by
          cases hb : (k != c2)
          · rfl
          · exact absurd hb h
        exact bne_eq_false_iff_eq.mp this
      simp only [h, if_false, List.lookup_cons]
      have hck : (c == k) = false := beq_false_of_ne (fun hc => hne (hc.trans hk))
      rw [hck]
      exact ih

theorem lookup_upsert_self (db : DbState) (c : String) (r : DbRow) :
    List.lookup c (upsertRow db c r) = some r := by
  unfold upsertRow
  rw [List.lookup_append, lookup_filter_out db c]
  simp [List.lookup_cons]

theorem lookup_upsert_other (db : DbState) (c c2 : String) (r : DbRow) (hne : c ≠ c2) :
    List.lookup c (upsertRow db c2 r) = List.lookup c db := by
  unfold upsertRow
  rw [List.lookup_append]
  have h2 : List.lookup c [(c2, r)] = none := by
    simp [List.lookup_cons, beq_false_of_ne hne]
  rw [h2, lookup_filter_keep db c c2 hne]
  exact Option.or_none

theorem update_database_cons (db : DbState) (d : AppleDevice) (devs : List AppleDevice)
    (now : String) :
    update_database db (d :: devs) now
      = (match rowOf now d with
         | .error e => .error e
         | .ok r => update_database (upsertRow db d.hardware_code r) devs now) := rfl

theorem update_database_lookup_notmem (db : DbState) (devs : List AppleDevice)
    (now : String) (c : String) (db2 : DbState)
    (h : update_database db devs now = .ok db2)
    (hc : c ∉ devs.map AppleDevice.hardware_code) :
    List.lookup c db2 = List.lookup c db := by
  induction devs generalizing db with
  | nil =>
    cases h
    rfl
  | cons d rest ih =>
    rw [List.map_cons] at hc
    rw [update_database_cons] at h
    cases hr : rowOf now d with
    | error e =>
      rw [hr] at h
      cases h
    | ok r =>
      rw [hr] at h
      rw [ih _ h (fun hmem => hc (List.mem_cons_of_mem _ hmem))]
      exact lookup_upsert_other db c d.hardware_code _
        (fun heq => hc (heq ▸ List.mem_cons_self _ _))

theorem update_database_lookup_mem (db : DbState) (devs : List AppleDevice)
    (now : String) (d : AppleDevice) (db2 : DbState)
    (h : update_database db devs now = .ok db2) (hd : d ∈ devs)
    (hnd : (devs.map AppleDevice.hardware_code).Nodup) :
    ∃ r, rowOf now d = .ok r ∧ List.lookup d.hardware_code db2 = some r := by
  induction devs generalizing db with
  | nil => cases hd
  | cons a rest ih =>
    rw [List.map_cons] at hnd
    rcases List.nodup_cons.mp hnd with ⟨hna, hnr⟩
    rw [update_database_cons] at h
    cases hr : rowOf now a with
    | error e =>
      rw [hr] at h
      cases h
    | ok r =>
      rw [hr] at h
      rcases List.mem_cons.mp hd with rfl | hd2
      · refine ⟨r, hr, ?_⟩
        rw [update_database_lookup_notmem _ _ _ _ _ h hna]
        exact lookup_upsert_self db d.hardware_code r
      · exact ih _ h hd2 hnr

theorem pyDictGet_get_existing (db : DbState) (c : String) :
    pyDictGet (get_existing_firmware db) c
      = (match List.lookup c db with
          | some r => r.firmware_sha1
          | none => none) := by
  induction db with
  | nil => rfl
  | cons kv rest ih =>
    obtain ⟨k, r⟩ := kv
    unfold get_existing_firmware at ih ⊢
    rw [List.map_cons]
    unfold pyDictGet at ih ⊢
    rw [List.lookup_cons, List.lookup_cons]
    cases hc : c == k
    · exact ih
    · rfl

/-! Second-run lemmas. -/

theorem restoreBlock_code (c : String) (info : PValue) (d : AppleDevice)
    (h : restoreBlock c info = .ok d) : d.hardware_code = c := by
  unfold restoreBlock at h
  simp only [Bind.bind, Except.bind] at h
  split at h
  · cases h
  · split at h
    · cases h
    · split at h
      · cases h
      · split at h
        · cases h
        · split at h
          · cases h
          · split at h
            · cases h
            · split at h
              · cases h
              · cases h
                rfl

theorem handleDevice_ok_some (c : String) (info : PValue) (d : AppleDevice)
    (h : handleDevice c info = .ok (some d)) : restoreBlock c info = .ok d := by
  unfold handleDevice at h
  split at h
  · cases h
    assumption
  · cases h
  · cases h

theorem extractLoop_no_appletv (e : PEntries) :
    ∀ l, extractLoop e = .ok l →
      ∀ d ∈ l, pyStartsWith d.hardware_code "AppleTV" = false := by
  induction e using PEntries.inductionOn with
  | h0 =>
    intro l h d hd
    cases h
    cases hd
  | h1 c info r ih =>
    intro l h d hd
    by_cases htv : pyStartsWith c "AppleTV" = true
    · rw [show extractLoop (.cons c info r) = extractLoop r by simp [extractLoop, htv]] at h
      exact ih l h d hd
    · rw [show extractLoop (.cons c info r)
          = (match handleDevice c info with
             | .error e => .error e
             | .ok none => extractLoop r
             | .ok (some d) => do
               let ds ← extractLoop r
               .ok (d :: ds)) by simp [extractLoop, htv]] at h
      cases hh : handleDevice c info with
      | error e2 =>
        rw [hh] at h
        cases h
      | ok od =>
        rw [hh] at h
        cases od with
        | none => exact ih l h d hd
        | some d0 =>
          cases hr : extractLoop r with
          | error e2 =>
            rw [hr] at h
            cases h
          | ok ds =>
            rw [hr] at h
            simp only [Bind.bind, Except.bind] at h
            cases h
            rcases List.mem_cons.mp hd with rfl | hd2
            · rw [restoreBlock_code c info d (handleDevice_ok_some c info d hh)]
              cases hb : pyStartsWith c "AppleTV"
              · rfl
              · exact absurd hb htv
            · exact ih ds hr d hd2

theorem extract_no_appletv (p : PValue) (remote : List AppleDevice)
    (h : extract_firmware_info p = .ok remote) :
    ∀ d ∈ remote, pyStartsWith d.hardware_code "AppleTV" = false := by
  unfold extract_firmware_info at h
  simp only [Bind.bind, Except.bind] at h
  cases h0 : pyGet p "MobileDeviceSoftwareVersionsByVersion" with
  | error e => rw [h0] at h; cases h
  | ok bv =>
    simp only [h0] at h
    by_cases t1 : (!pyTruthy bv) = true
    · rw [if_pos t1] at h
      cases h
      intro d hd
      cases hd
    · rw [if_neg t1] at h
      cases bv with
      | none =>
        cases h
        intro d hd
        cases hd
      | some bvv =>
        cases h1 : find_latest_version_node bvv with
        | error e =>
          simp only [h1] at h
          cases h
        | ok latest =>
          simp only [h1] at h
          by_cases t2 : (!pyTruthy latest) = true
          · rw [if_pos t2] at h
            cases h
            intro d hd
            cases hd
          · rw [if_neg t2] at h
            cases latest with
            | none =>
              cases h
              intro d hd
              cases hd
            | some lv =>
              cases h2 : pyGet lv "MobileDeviceSoftwareVersions" with
              | error e =>
                simp only [h2] at h
                cases h
              | ok versions =>
                simp only [h2] at h
                by_cases t3 : (!pyTruthy versions) = true
                · rw [if_pos t3] at h
                  cases h
                  intro d hd
                  cases hd
                · rw [if_neg t3] at h
                  cases versions with
                  | none =>
                    cases h
                    intro d hd
                    cases hd
                  | some vv =>
                    cases vv with
                    | pdict e => exact extractLoop_no_appletv e remote h
                    | parr a => cases h
                    | pstr s => cases h
                    | pint n => cases h
                    | pbool b => cases h

theorem init_db_idem (db : DbState) : init_db (init_db db) = init_db db := by
  unfold init_db
  induction db with
  | nil => rfl
  | cons kv rest ih =>
    by_cases h : (!sqlLikeAppleTV kv.1) = true
    · simp [List.filter_cons, h, ih]
    · simp [List.filter_cons, h, ih]

theorem init_db_upsert (db : DbState) (c : String) (r : DbRow)
    (hdb : init_db db = db) (hc : sqlLikeAppleTV c = false) :
    init_db (upsertRow db c r) = upsertRow db c r := by
  unfold upsertRow
  unfold init_db at hdb ⊢
  rw [List.filter_append]
  have h1 : List.filter (fun kv => !sqlLikeAppleTV kv.1)
      (List.filter (fun kv => kv.1 != c) db)
      = List.filter (fun kv => kv.1 != c) db := by
    rw [List.filter_comm, hdb]
  rw [h1]
  have h2 : List.filter (fun kv => !sqlLikeAppleTV kv.1) [(c, r)] = [(c, r)] := by
    simp [List.filter_cons, hc]
  rw [h2]

theorem init_db_update (db : DbState) (devs : List AppleDevice) (now : String)
    (db2 : DbState) (h : update_database db devs now = .ok db2)
    (hdb : init_db db = db)
    (hdevs : ∀ d ∈ devs, sqlLikeAppleTV d.hardware_code = false) :
    init_db db2 = db2 := by
  induction devs generalizing db with
  | nil =>
    cases h
    exact hdb
  | cons d rest ih =>
    rw [update_database_cons] at h
    cases hr : rowOf now d with
    | error e =>
      rw [hr] at h
      cases h
    | ok r =>
      rw [hr] at h
      exact ih _ h
        (init_db_upsert db d.hardware_code r hdb (hdevs d (List.mem_cons_self _ _)))
        (fun d2 hd2 => hdevs d2 (List.mem_cons_of_mem _ hd2))

theorem sqliteBind_fixed (v : Option PValue) (h : sqliteTextFixed v = true) :
    sqliteBind v = .ok v := by
  cases v with
  | none => rfl
  | some pv =>
    cases pv with
    | pstr s => rfl
    | pdict e => cases h
    | parr a => cases h
    | pint n => cases h
    | pbool b => cases h

theorem rowOf_sha (now : String) (d : AppleDevice) (r : DbRow)
    (h : rowOf now d = .ok r) : sqliteBind d.firmware_sha1 = .ok r.firmware_sha1 := by
  unfold rowOf at h
  simp only [Bind.bind, Except.bind] at h
  split at h
  · cases h
  · split at h
    · cases h
    · split at h
      · cases h
      · next sha hsha =>
        split at h
        · cases h
        · cases h
          exact hsha

theorem diff_after_update (db : DbState) (remote : List AppleDevice) (now : String)
    (db2 : DbState) (h : update_database db remote now = .ok db2)
    (hnd : (remote.map AppleDevice.hardware_code).Nodup)
    (hsha : ∀ d ∈ remote, sqliteTextFixed d.firmware_sha1 = true) :
    diff_devices (get_existing_firmware db2) remote = [] := by
  unfold diff_devices
  rw [List.filter_eq_nil_iff]
  intro d hd
  rw [pyDictGet_get_existing]
  rcases update_database_lookup_mem db remote now d db2 h hd hnd with ⟨r, hr, hlook⟩
  have hbind : sqliteBind d.firmware_sha1 = .ok r.firmware_sha1 := rowOf_sha now d r hr
  rw [sqliteBind_fixed d.firmware_sha1 (hsha d hd)] at hbind
  have hrs : r.firmware_sha1 = d.firmware_sha1 := by
    injection hbind with h2
    exact h2.symm
  rw [hlook]
  simp [hrs]

theorem runDeltas_eq (s : WorldState) (p : PValue) (remote : List AppleDevice)
    (hx : extract_firmware_info p = .ok remote) :
    runDeltas s p = diff_devices (get_existing_firmware (init_db s.db)) remote := by
  unfold runDeltas
  rw [hx]

theorem runMain_noop (s : WorldState) (p : PValue) (remote : List AppleDevice) (now : String)
    (hx : extract_firmware_info p = .ok remote)
    (hclean : init_db s.db = s.db)
    (hdiff : diff_devices (get_existing_firmware s.db) remote = []) :
    runMain s (some p) now = .ok s := by
  unfold runMain
  simp only [hx, hclean, hdiff]
  cases hre : remote.isEmpty
  · simp only [hre, Bool.false_eq_true, if_false, List.isEmpty_nil, if_true]
  · simp only [hre, if_true]

/-- C8 amended: running the pipeline a second time over an unchanged manifest
computes zero deltas and returns the first run's state (store, feed document
and history log) unchanged, PROVIDED the extracted records have
per-manifest-unique hardware codes (as Python dict keys guarantee), no
hardware code matching the case-insensitive `AppleTV%` pattern (such a code
passes the case-sensitive `startswith` extraction filter but its row is
deleted by `init_db` on the next run, making the device a delta every run),
and fingerprints that are absent or strings (TEXT affinity rewrites a numeric
fingerprint to its text form in the store, so it differs from the extracted
value on every later run). -/
theorem C8_noop_second_run (s : WorldState) (p : PValue) (remote : List AppleDevice)
    (now now2 : String) (s1 : WorldState)
    (hx : extract_firmware_info p = .ok remote)
    (hnd : (remote.map AppleDevice.hardware_code).Nodup)
    (htv : ∀ d ∈ remote, sqlLikeAppleTV d.hardware_code = false)
    (hsha : ∀ d ∈ remote, sqliteTextFixed d.firmware_sha1 = true)
    (h1 : runMain s (some p) now = .ok s1) :
    runDeltas s1 p = [] ∧ runMain s1 (some p) now2 = .ok s1 := by
  unfold runMain at h1
  simp only [hx] at h1
  cases hre : remote.isEmpty with
  | true =>
    have hrem : remote = [] := List.isEmpty_iff.mp hre
    rw [hre, if_pos rfl] at h1
    cases h1
    constructor
    · rw [runDeltas_eq _ p remote hx, hrem]
      rfl
    · refine runMain_noop _ p remote now2 hx (init_db_idem s.db) ?_
      rw [hrem]
      rfl
  | false =>
    rw [hre, if_neg (by decide)] at h1
    cases hup : (diff_devices (get_existing_firmware (init_db s.db)) remote).isEmpty with
    | true =>
      have hupd_nil : diff_devices (get_existing_firmware (init_db s.db)) remote = [] :=
        List.isEmpty_iff.mp hup
      rw [hup, if_pos rfl] at h1
      cases h1
      constructor
      · rw [runDeltas_eq _ p remote hx]
        show diff_devices (get_existing_firmware (init_db (init_db s.db))) remote = []
        rw [init_db_idem s.db]
        exact hupd_nil
      · exact runMain_noop _ p remote now2 hx (init_db_idem s.db) hupd_nil
    | false =>
      rw [hup, if_neg (by decide)] at h1
      cases hupd : update_database (init_db s.db) remote now with
      | error e =>
        simp only [hupd] at h1
        cases h1
      | ok db2 =>
        simp only [hupd] at h1
        cases hsave : save_firmware_urls
            (diff_devices (get_existing_firmware (init_db s.db)) remote) s.history with
        | error e =>
          simp only [hsave] at h1
          cases h1
        | ok nh =>
          simp only [hsave] at h1
          cases h1
          have hclean : init_db db2 = db2 :=
            init_db_update _ _ _ _ hupd (init_db_idem s.db) htv
          have hdiff2 : diff_devices (get_existing_firmware db2) remote = [] :=
            diff_after_update _ _ _ _ hupd hnd hsha
          constructor
          · rw [runDeltas_eq _ p remote hx]
            show diff_devices (get_existing_firmware (init_db db2)) remote = []
            rw [hclean]
            exact hdiff2
          · exact runMain_noop _ p remote now2 hx hclean hdiff2

/-- A fresh world for the C8 witness. -/
def s0w : WorldState := ⟨[], none, none⟩

/-- The state after the first run over `manifest1`. -/
def s1w : WorldState :=
  match runMain s0w (some manifest1) "t1" with
  | .ok s => s
  | .error _ => s0w

/-- Witness for C8: for the concrete one-device manifest (a clean code and a
string fingerprint), the second run computes zero deltas and changes
nothing. -/
theorem C8_witness :
    runDeltas s1w manifest1 = [] ∧ runMain s1w (some manifest1) "t2" = .ok s1w :=
  C8_noop_second_run s0w manifest1 [dev1] "t1" "t2" s1w (by decide) (by decide) (by decide)
    (by decide) (by decide)

/-- A manifest whose single device code `appletv1,1` is lower-case: it passes
the case-sensitive `startswith("AppleTV")` extraction filter. -/
def manLowerTV : PValue :=
  pd1 "MobileDeviceSoftwareVersionsByVersion"
    (pd1 "1" (pd1 "MobileDeviceSoftwareVersions"
      (pd1 "appletv1,1" (devNode "B3" "S3" "U3" "P3"))))

/-- The device `manLowerTV` extracts to. -/
def devLowerTV : AppleDevice :=
  ⟨"appletv1,1", some (.pstr "B3"), some (.pstr "S3"), some (.pstr "U3"), some (.pstr "P3")⟩

/-- The state after a first run over `manLowerTV` from an empty world. -/
def s1LTV : WorldState :=
  match runMain ⟨[], none, none⟩ (some manLowerTV) "t1" with
  | .ok st => st
  | .error _ => ⟨[], none, none⟩

/-- A manifest whose single device carries the integer fingerprint 123. -/
def manIntSha : PValue :=
  pd1 "MobileDeviceSoftwareVersionsByVersion"
    (pd1 "1" (pd1 "MobileDeviceSoftwareVersions"
      (pd1 "iPhone5,1" (pd1 "Unknown" (pd1 "Universal" (pd1 "Restore"
        (.pdict (.cons "BuildVersion" (.pstr "B4") (.cons "FirmwareSHA1" (.pint 123)
          (.cons "FirmwareURL" (.pstr "U4")
            (.cons "ProductVersion" (.pstr "P4") .nil)))))))))))

/-- The device `manIntSha` extracts to. -/
def devIntSha : AppleDevice :=
  ⟨"iPhone5,1", some (.pstr "B4"), some (.pint 123), some (.pstr "U4"), some (.pstr "P4")⟩

/-- The state after a first run over `manIntSha` from an empty world. -/
def s1Int : WorldState :=
  match runMain ⟨[], none, none⟩ (some manIntSha) "t1" with
  | .ok st => st
  | .error _ => ⟨[], none, none⟩

/-- C8 counterexample: two concrete unchanged-manifest reruns with a nonzero
second-run delta list.  With the device code `appletv1,1`, run 1 stores the
device (the extraction filter is case-sensitive) but run 2's `init_db`
deletes the row (SQLite `LIKE 'AppleTV%'` is ASCII-case-insensitive), so
run 2 reports the device again.  With the integer fingerprint 123, the TEXT
affinity of the `firmware_sha1` column stores the text `"123"`, and run 2
compares `123 != "123"` as `True`, reporting the device again.  Either way
the second run is not a no-op: its delta list is nonempty and the feed would
be rewritten. -/
theorem C8_counterexample :
    (runMain ⟨[], none, none⟩ (some manLowerTV) "t1" = .ok s1LTV
      ∧ runDeltas s1LTV manLowerTV = [devLowerTV])
    ∧ (runMain ⟨[], none, none⟩ (some manIntSha) "t1" = .ok s1Int
      ∧ runDeltas s1Int manIntSha = [devIntSha]) := by
  refine ⟨⟨rfl, by decide⟩, rfl, by decide⟩
